import Mathlib

/-!
Shallow embedding of the Forcepoint NGFW dynamic-tags scripts
(`aws/main.py`, `azure/main.py`, `gcp/main.py`).

Each script fetches cloud instances, normalizes them, aggregates private
addresses into named groups keyed by tag/label, and either prints the result
(`--report_only`) or publishes each group to the SMC management system via
`IPList.update_or_create(name, iplist, append_lists=False)`.

The aggregate (`iplists` in the scripts) is a mutable insertion-ordered dict
from group name to list of addresses, built via
`iplists.setdefault(name, []).extend(addrs)`; we embed it as an association
list and `setdefault`+`extend` as `extendKey`.  The observable effects of a
run (session login, publish calls, printing) are embedded as an `Event`
trace produced by per-script `main` functions.
-/

namespace DynTags

/-- A group aggregate: insertion-ordered mapping from group name to the list
of addresses accumulated for that group (`iplists` in all three scripts). -/
abbrev Agg := List (String × List String)

/-- Observable effects of one run: SMC session login, one
`IPList.update_or_create(name, iplist, append_lists)` call, printing the raw
fetched data, printing the aggregate. -/
inductive Event where
  | login : Event
  | printRaw : Event
  | printAgg : Agg → Event
  | publish : String → List String → Bool → Event
deriving DecidableEq

/-- `iplists.setdefault(name, []).extend(addrs)` on an insertion-ordered
dict: extend the entry for `nam` in place if present, else append a fresh
entry at the end. -/
def extendKey : Agg → String → List String → Agg
  | [], nam, addrs => [(nam, addrs)]
  | (k, v) :: rest, nam, addrs =>
    if k = nam then (k, v ++ addrs) :: rest
    else (k, v) :: extendKey rest nam addrs

/-- The shared publish stage (`for listname, ipaddrs in iplists.items():
IPList.update_or_create(name=listname, iplist=ipaddrs, append_lists=False)`).
Each call may raise; there is no try/except, so the loop stops at the first
failing call.  `callOk` tells which group names the remote call succeeds
for; the result is the trace of issued calls and whether the loop finished. -/
def publishLoop (callOk : String → Bool) : Agg → List Event × Bool
  | [] => ([], true)
  | (nam, addrs) :: rest =>
    if callOk nam then
      let r := publishLoop callOk rest
      (Event.publish nam addrs false :: r.1, r.2)
    else
      ([Event.publish nam addrs false], false)

/-- Modelled from the spec: the remote SMC `IPList.update_or_create`
contract (the `smc` library is external to this repository): with
`append_lists=False` the supplied address list overwrites the remote list
contents; with `append_lists=True` it is appended to them. -/
def updateRemote (old new : List String) (append_lists : Bool) : List String :=
  if append_lists then old ++ new else new

/-! ## AWS (`aws/main.py`) -/

/-- One AWS tag dict `{'Key': ..., 'Value': ...}`; the aggregation loop reads
both fields with `tag.get(k, '')`, so a missing field behaves as `""`. -/
structure AwsTag where
  key : String
  value : String
deriving DecidableEq

/-- A normalized EC2 record built by `describe_instances` (the `Name` tag has
already been removed from `tags` there). -/
structure AwsInstance where
  name : String
  tags : List AwsTag
  private_address : List String
  placement : String
deriving DecidableEq

/-- The AWS command-line options the aggregation and publish stages read. -/
structure AwsConfig where
  report_only : Bool
  untagged_group : Option String
deriving DecidableEq

/-- `key.replace(' ', '_')` — Python single-character replace is a
character map. -/
def replaceSpaces (s : String) : String :=
  String.mk (s.data.map (fun c => if c = ' ' then '_' else c))

/-- AWS group name for one tag:
`name = f"{key}_{value}"` after `key = tag.get('Key', '').replace(' ', '_')`
and `value = tag.get('Value', '').replace(' ', '_')`. -/
def awsTagName (t : AwsTag) : String :=
  replaceSpaces t.key ++ "_" ++ replaceSpaces t.value

/-- The AWS fallback group name for an untagged instance:
`config.untagged_group` if given, else `f'untagged-aws-{placement}'`. -/
def awsUntaggedName (cfg : AwsConfig) (i : AwsInstance) : String :=
  match cfg.untagged_group with
  | some g => g
  | none => "untagged-aws-" ++ i.placement

/-- The body of the AWS aggregation loop for one instance
(`aws/main.py` lines 277–292). -/
def awsAggInstance (cfg : AwsConfig) (agg : Agg) (i : AwsInstance) : Agg :=
  match i.tags with
  | [] => extendKey agg (awsUntaggedName cfg i) i.private_address
  | _ :: _ =>
    i.tags.foldl (fun a t => extendKey a (awsTagName t) i.private_address) agg

/-- The AWS aggregation stage over the fetched pages
(`for batch in describe_instances_all(...): for instance in batch: ...`). -/
def awsAggregate (cfg : AwsConfig) (batches : List (List AwsInstance)) : Agg :=
  batches.foldl (fun agg batch => batch.foldl (awsAggInstance cfg) agg) []

/-- The AWS `__main__` flow after argument parsing, as an event trace plus a
success flag: report-only prints the raw batches, otherwise `session.login()`
runs; both aggregate; report-only prints the aggregate and exits 0, otherwise
the publish loop runs. -/
def awsMain (cfg : AwsConfig) (batches : List (List AwsInstance))
    (callOk : String → Bool) : List Event × Bool :=
  let ev0 : List Event := if cfg.report_only then [Event.printRaw] else [Event.login]
  let agg := awsAggregate cfg batches
  if cfg.report_only then
    (ev0 ++ [Event.printAgg agg], true)
  else
    let r := publishLoop callOk agg
    (ev0 ++ r.1, r.2)

/-! ## Azure (`azure/main.py`) -/

/-- A normalized Azure VM dict from `get_virtual_machine_details`; `tags` is
the VM's tag dict taken verbatim (a tag literally keyed `Name` is NOT
removed), embedded as an insertion-ordered association list. -/
structure AzureVm where
  name : String
  tags : List (String × String)
  private_address : List String
deriving DecidableEq

/-- The Azure command-line options the aggregation and publish stages read. -/
structure AzureConfig where
  report_only : Bool
deriving DecidableEq

/-- Azure group name for one tag:
`name = f"{tag}_{_value}" if _value else f"{tag}"`. -/
def azureTagName (k v : String) : String :=
  if v = "" then k else k ++ "_" ++ v

/-- The body of the Azure aggregation loop for one VM
(`azure/main.py` lines 187–192): tagged VMs fan out over their tags; there
is no `else` branch, so an untagged VM contributes to no group. -/
def azureAggVm (agg : Agg) (vm : AzureVm) : Agg :=
  match vm.tags with
  | [] => agg
  | _ :: _ =>
    vm.tags.foldl (fun a kv => extendKey a (azureTagName kv.1 kv.2) vm.private_address) agg

/-- The Azure aggregation stage over the per-subscription results
(`for subscription, values in result.items(): for value in values: ...`). -/
def azureAggregate (result : List (String × List AzureVm)) : Agg :=
  result.foldl (fun agg sub => sub.2.foldl azureAggVm agg) []

/-- The Azure `__main__` flow after the inventory is fetched: report-only
prints the raw result and exits 0 BEFORE any aggregation; otherwise
`session.login()` runs, the aggregate is built and the publish loop runs. -/
def azureMain (cfg : AzureConfig) (result : List (String × List AzureVm))
    (callOk : String → Bool) : List Event × Bool :=
  if cfg.report_only then ([Event.printRaw], true)
  else
    let agg := azureAggregate result
    let r := publishLoop callOk agg
    (Event.login :: r.1, r.2)

/-! ## GCP (`gcp/main.py`) -/

/-- A raw GCP instance as `list_all_instances` reads it: its labels, and the
`network_i_p` of each network interface. -/
structure GcpInstance where
  labels : List (String × String)
  network_interfaces : List String
deriving DecidableEq

/-- The host dict built by `list_all_instances`: the loop
`for net in instance.network_interfaces:
hostdata.setdefault('private_address', []).append(net.network_i_p)`
only creates the `'private_address'` key when at least one interface exists
(the initializer writes the unused plural key `'private_addresses'`), so
`host.get('private_address')` is `None` for an interface-less instance. -/
structure GcpHost where
  labels : List (String × String)
  private_address : Option (List String)
deriving DecidableEq

/-- Normalization of one GCP instance into its host dict. -/
def gcpHostOf (inst : GcpInstance) : GcpHost :=
  { labels := inst.labels,
    private_address :=
      inst.network_interfaces.foldl (fun o ip => some (o.getD [] ++ [ip])) none }

/-- GCP group name for one label:
`name = f"{key}_{value}" if value else key`. -/
def gcpTagName (k v : String) : String :=
  if v = "" then k else k ++ "_" ++ v

/-- The Python error raised by `[].extend(None)`. -/
def gcpTypeErrorMsg : String := "TypeError: NoneType object is not iterable"

/-- `iplists.setdefault(name, []).extend(host.get('private_address'))`:
raises when the host has no `'private_address'` key. -/
def gcpExtend (agg : Agg) (nam : String) : Option (List String) → Except String Agg
  | none => Except.error gcpTypeErrorMsg
  | some addrs => Except.ok (extendKey agg nam addrs)

/-- The body of the GCP aggregation loop for one host
(`gcp/main.py` lines 130–133). -/
def gcpAggHost (agg : Agg) (h : GcpHost) : Except String Agg :=
  h.labels.foldlM (fun a kv => gcpExtend a (gcpTagName kv.1 kv.2) h.private_address) agg

/-- The GCP aggregation stage over the zone-keyed mapping
(`for zone, instance in instances.items(): for host in instance: ...`). -/
def gcpAggregate (m : List (String × List GcpHost)) : Except String Agg :=
  m.foldlM (fun agg z => z.2.foldlM gcpAggHost agg) []

/-- What `main` holds in `instances`: with `--zone`, the iterable pager
returned by `list_instances`; without it, the zone-keyed dict returned by
`list_all_instances`. -/
inductive GcpInventory where
  | pager : List GcpInstance → GcpInventory
  | zoneMap : List (String × List GcpHost) → GcpInventory
deriving DecidableEq

/-- The Python error raised by calling `.items()` on the pager object. -/
def gcpAttrErrorMsg : String := "AttributeError: object has no attribute items"

/-- `instances.items()`: only the dict from `list_all_instances` has it; the
iterable from `list_instances` raises `AttributeError`. -/
def gcpItems : GcpInventory → Except String (List (String × List GcpHost))
  | GcpInventory.pager _ => Except.error gcpAttrErrorMsg
  | GcpInventory.zoneMap m => Except.ok m

/-- The GCP command-line options the main flow reads. -/
structure GcpConfig where
  zone : Option String
  report_only : Bool
deriving DecidableEq

/-- The GCP `__main__` flow after argument parsing: pick the inventory by
`config.zone`; report-only prints it, otherwise `session.login()` runs; the
aggregation stage calls `.items()` (which raises on the pager) and may raise
inside; report-only then prints the aggregate and exits 0, otherwise the
publish loop runs.  `Except.ok ()` is a normal `sys.exit(0)`. -/
def gcpMain (cfg : GcpConfig) (pagerResult : List GcpInstance)
    (zoneResult : List (String × List GcpHost)) (callOk : String → Bool) :
    List Event × Except String Unit :=
  let inv : GcpInventory := match cfg.zone with
    | some _ => GcpInventory.pager pagerResult
    | none => GcpInventory.zoneMap zoneResult
  let ev0 : List Event := if cfg.report_only then [Event.printRaw] else [Event.login]
  match gcpItems inv with
  | Except.error e => (ev0, Except.error e)
  | Except.ok m =>
    match gcpAggregate m with
    | Except.error e => (ev0, Except.error e)
    | Except.ok agg =>
      if cfg.report_only then (ev0 ++ [Event.printAgg agg], Except.ok ())
      else
        let r := publishLoop callOk agg
        (ev0 ++ r.1, if r.2 then Except.ok () else Except.error "publish call failed")

/-! ## Helper lemmas -/

/-- `setdefault`+`extend` on a fresh key appends a new entry at the end. -/
lemma extendKey_not_mem (nam : String) (addrs : List String) :
    ∀ agg : Agg, (∀ p ∈ agg, p.1 ≠ nam) →
      extendKey agg nam addrs = agg ++ [(nam, addrs)] := by
  intro agg
  induction agg with
  | nil => intro _; rfl
  | cons kv rest ih =>
    intro h
    obtain ⟨k, v⟩ := kv
    have hk : ¬(k = nam) := h (k, v) (by simp)
    simp only [extendKey, if_neg hk, List.cons_append, List.cons.injEq, true_and]
    exact ih fun p hp => h p (by simp [hp])

/-- Fanning an address list out over tags whose synthesized names are fresh
and pairwise distinct appends one entry per tag, each holding the full
address list. -/
lemma foldl_extendKey_fresh {α : Type} (f : α → String) (addrs : List String) :
    ∀ (ts : List α) (agg : Agg), (ts.map f).Nodup →
      (∀ t ∈ ts, ∀ p ∈ agg, p.1 ≠ f t) →
      ts.foldl (fun a t => extendKey a (f t) addrs) agg
        = agg ++ ts.map (fun t => (f t, addrs)) := by
  intro ts
  induction ts with
  | nil => intro agg _ _; simp
  | cons t rest ih =>
    intro agg hnd hfresh
    simp only [List.map_cons, List.nodup_cons] at hnd
    simp only [List.foldl_cons, List.map_cons]
    rw [extendKey_not_mem (f t) addrs agg (hfresh t (by simp))]
    rw [ih (agg ++ [(f t, addrs)]) hnd.2 ?fresh]
    · simp
    case fresh =>
      intro u hu p hp
      rcases List.mem_append.1 hp with hp | hp
      · exact hfresh u (by simp [hu]) p hp
      · simp only [List.mem_singleton] at hp
        subst hp
        intro hEq
        apply hnd.1
        have hft : f t = f u := hEq
        rw [hft]
        exact List.mem_map_of_mem f hu

/-- When every remote call succeeds, the publish loop issues exactly one
`update_or_create(name, iplist, append_lists=False)` call per aggregate
entry, in order, and finishes. -/
lemma publishLoop_all_ok (callOk : String → Bool) :
    ∀ agg : Agg, (∀ p ∈ agg, callOk p.1 = true) →
      publishLoop callOk agg
        = (agg.map (fun p => Event.publish p.1 p.2 false), true) := by
  intro agg
  induction agg with
  | nil => intro _; rfl
  | cons kv rest ih =>
    intro h
    obtain ⟨k, v⟩ := kv
    have hk : callOk k = true := h (k, v) (by simp)
    simp only [publishLoop, hk, if_pos, List.map_cons]
    rw [ih fun p hp => h p (by simp [hp])]

/-- The AWS aggregation accumulates across page boundaries: aggregating the
pages is aggregating their concatenation delivered as one page. -/
lemma awsAggregate_flatten (cfg : AwsConfig) (batches : List (List AwsInstance)) :
    awsAggregate cfg batches = awsAggregate cfg [batches.flatten] := by
  simp only [awsAggregate, List.foldl_cons, List.foldl_nil, List.foldl_flatten]

/-- On a string without spaces, the AWS `replace(' ', '_')` is the identity. -/
lemma replaceSpaces_eq_self (s : String) (h : ' ' ∉ s.data) : replaceSpaces s = s := by
  unfold replaceSpaces
  have h2 : s.data.map (fun c => if c = ' ' then '_' else c) = s.data.map id := by
    apply List.map_congr_left
    intro c hc
    have hc2 : ¬(c = ' ') := fun e => h (e ▸ hc)
    simp [hc2]
  rw [h2, List.map_id]

/-- Unfolding the data of a space-replaced string. -/
lemma replaceSpaces_data (s : String) :
    (replaceSpaces s).data = s.data.map (fun c => if c = ' ' then '_' else c) := rfl

/-! ## Claims -/

/-- C1, counterexample: in the Azure script, a normalized instance whose tag
set is empty is placed in NO group at all — the aggregation loop has no
`else` branch, so no fallback group exists and its addresses are dropped. -/
theorem c1_counterexample :
    azureAggregate [("sub1", [⟨"vm2", [], ["10.0.0.2"]⟩])] = [] := rfl

/-- C1, amended: only the AWS script has a fallback group.  There, an
instance with an empty non-`Name` tag set has its addresses placed exactly
in the fallback group — the `--untagged_group` override if supplied,
otherwise `untagged-aws-<zone>` — and in no tag-derived group; the Azure and
GCP scripts have no fallback branch, so an untagged instance contributes to
no group at all. -/
theorem c1_amended (cfg : AwsConfig) (i : AwsInstance) (hi : i.tags = [])
    (g : String) (agg a2 : Agg) (vm : AzureVm) (hvm : vm.tags = [])
    (host : GcpHost) (hh : host.labels = []) :
    awsAggregate cfg [[i]] = [(awsUntaggedName cfg i, i.private_address)] ∧
    (cfg.untagged_group = some g → awsUntaggedName cfg i = g) ∧
    (cfg.untagged_group = none →
      awsUntaggedName cfg i = "untagged-aws-" ++ i.placement) ∧
    azureAggVm agg vm = agg ∧
    gcpAggHost a2 host = Except.ok a2 := by
  refine ⟨?_, ?_, ?_, ?_, ?_⟩
  · simp [awsAggregate, awsAggInstance, hi, extendKey]
  · intro h; simp [awsUntaggedName, h]
  · intro h; simp [awsUntaggedName, h]
  · simp [azureAggVm, hvm]
  · simp [gcpAggHost, hh]
    rfl

/-- C1, witness: concrete untagged AWS instance lands in
`untagged-aws-us-east-1a`; concrete untagged Azure VM and label-less GCP
host contribute nothing. -/
theorem c1_witness :
    awsAggregate ⟨false, none⟩ [[⟨"vm2", [], ["10.0.0.2"], "us-east-1a"⟩]] =
      [(awsUntaggedName ⟨false, none⟩ ⟨"vm2", [], ["10.0.0.2"], "us-east-1a"⟩,
        ["10.0.0.2"])] ∧
    ((⟨false, none⟩ : AwsConfig).untagged_group = some "lostandfound" →
      awsUntaggedName ⟨false, none⟩ ⟨"vm2", [], ["10.0.0.2"], "us-east-1a"⟩
        = "lostandfound") ∧
    ((⟨false, none⟩ : AwsConfig).untagged_group = none →
      awsUntaggedName ⟨false, none⟩ ⟨"vm2", [], ["10.0.0.2"], "us-east-1a"⟩
        = "untagged-aws-" ++ "us-east-1a") ∧
    azureAggVm [] ⟨"vmA", [], ["10.1.0.4"]⟩ = [] ∧
    gcpAggHost [] ⟨[], none⟩ = Except.ok [] :=
  c1_amended ⟨false, none⟩ ⟨"vm2", [], ["10.0.0.2"], "us-east-1a"⟩ rfl
    "lostandfound" [] [] ⟨"vmA", [], ["10.1.0.4"]⟩ rfl ⟨[], none⟩ rfl

/-- C2, counterexample: two AWS tags may synthesize the SAME group name
(`a`/`b_c` and `a_b`/`c` both give `a_b_c`), so an instance with 2 non-Name
tags yields 1 aggregate entry, not 2 distinct entries, and that entry holds
the address list twice rather than the full list once. -/
theorem c2_counterexample :
    (⟨"vm1", [⟨"a", "b_c"⟩, ⟨"a_b", "c"⟩], ["10.0.0.1"], "z"⟩
        : AwsInstance).tags.length = 2 ∧
    awsAggregate ⟨false, none⟩
        [[⟨"vm1", [⟨"a", "b_c"⟩, ⟨"a_b", "c"⟩], ["10.0.0.1"], "z"⟩]]
      = [("a_b_c", ["10.0.0.1", "10.0.0.1"])] := by
  exact ⟨rfl, by decide⟩

/-- C2, amended: provided the instance's tags synthesize pairwise-distinct
group names, aggregating the instance produces exactly one entry per tag
(N entries for N tags), each holding the instance's full address list
(fan-out, not partition).  For AWS the tags are the non-`Name` tags (the
`Name` tag is stripped at normalization); for Azure they are all tags,
including one literally keyed `Name` if present. -/
theorem c2_amended (cfg : AwsConfig) (i : AwsInstance) (hne : ¬ i.tags = [])
    (hnd : (i.tags.map awsTagName).Nodup)
    (vm : AzureVm) (hvne : ¬ vm.tags = [])
    (hvnd : (vm.tags.map (fun kv => azureTagName kv.1 kv.2)).Nodup) :
    awsAggregate cfg [[i]]
      = i.tags.map (fun t => (awsTagName t, i.private_address)) ∧
    (awsAggregate cfg [[i]]).length = i.tags.length ∧
    (∀ p ∈ awsAggregate cfg [[i]], p.2 = i.private_address) ∧
    azureAggregate [("sub1", [vm])]
      = vm.tags.map (fun kv => (azureTagName kv.1 kv.2, vm.private_address)) ∧
    (azureAggregate [("sub1", [vm])]).length = vm.tags.length ∧
    (∀ p ∈ azureAggregate [("sub1", [vm])], p.2 = vm.private_address) := by
  have h1 : awsAggregate cfg [[i]]
      = i.tags.map (fun t => (awsTagName t, i.private_address)) := by
    obtain ⟨nm, tg, pa, pl⟩ := i
    simp only at hne hnd ⊢
    cases tg with
    | nil => exact absurd rfl hne
    | cons t ts =>
      simp only [awsAggregate, List.foldl_cons, List.foldl_nil, awsAggInstance]
      have := foldl_extendKey_fresh awsTagName pa (t :: ts) [] hnd
        (by intro u hu p hp; cases hp)
      simpa using this
  have h2 : azureAggregate [("sub1", [vm])]
      = vm.tags.map (fun kv => (azureTagName kv.1 kv.2, vm.private_address)) := by
    obtain ⟨nm, tg, pa⟩ := vm
    simp only at hvne hvnd ⊢
    cases tg with
    | nil => exact absurd rfl hvne
    | cons t ts =>
      simp only [azureAggregate, List.foldl_cons, List.foldl_nil, azureAggVm]
      have := foldl_extendKey_fresh (fun kv : String × String => azureTagName kv.1 kv.2)
        pa (t :: ts) [] hvnd (by intro u hu p hp; cases hp)
      simpa using this
  refine ⟨h1, by rw [h1]; simp, ?_, h2, by rw [h2]; simp, ?_⟩
  · rw [h1]
    intro p hp
    obtain ⟨t, _, rfl⟩ := List.mem_map.1 hp
    rfl
  · rw [h2]
    intro p hp
    obtain ⟨t, _, rfl⟩ := List.mem_map.1 hp
    rfl

/-- C2, witness: an AWS instance and an Azure VM with two tags each fan
their single address out into both tag-derived groups. -/
theorem c2_witness :
    awsAggregate ⟨false, none⟩
        [[⟨"vm1", [⟨"env", "prod"⟩, ⟨"team", "infra"⟩], ["10.0.0.1"], "z"⟩]]
      = [("env_prod", ["10.0.0.1"]), ("team_infra", ["10.0.0.1"])] ∧
    azureAggregate
        [("sub1", [⟨"vmz", [("env", "prod"), ("team", "infra")], ["10.1.0.4"]⟩])]
      = [("env_prod", ["10.1.0.4"]), ("team_infra", ["10.1.0.4"])] := by
  have h := c2_amended ⟨false, none⟩
    ⟨"vm1", [⟨"env", "prod"⟩, ⟨"team", "infra"⟩], ["10.0.0.1"], "z"⟩
    (by decide) (by decide)
    ⟨"vmz", [("env", "prod"), ("team", "infra")], ["10.1.0.4"]⟩
    (by decide) (by decide)
  exact ⟨h.1.trans (by decide), h.2.2.2.1.trans (by decide)⟩

/-- C3, counterexample: the AWS script does NOT fall back to the bare key on
an empty tag value — it always emits `f"{key}_{value}"`, so an empty value
yields a trailing underscore. -/
theorem c3_counterexample :
    awsTagName ⟨"env", ""⟩ = "env_" ∧ ¬ awsTagName ⟨"env", ""⟩ = "env" := by
  constructor
  · decide
  · decide

/-- C3, amended: the value-empty fallback to the bare key holds in the Azure
and GCP scripts only; the AWS script always emits `<key>_<value>` (after its
space sanitization), which degenerates to `<key>_` on an empty value.  On
space-free non-empty keys and values all three agree on `<key>_<value>`. -/
theorem c3_amended (k v : String) (hv : ¬ v = "")
    (hk : ' ' ∉ k.data) (hvs : ' ' ∉ v.data) :
    azureTagName k v = k ++ "_" ++ v ∧
    azureTagName k "" = k ∧
    gcpTagName k v = k ++ "_" ++ v ∧
    gcpTagName k "" = k ∧
    awsTagName ⟨k, v⟩ = k ++ "_" ++ v ∧
    awsTagName ⟨k, ""⟩ = k ++ "_" := by
  refine ⟨by simp [azureTagName, hv], by simp [azureTagName],
    by simp [gcpTagName, hv], by simp [gcpTagName], ?_, ?_⟩
  · simp [awsTagName, replaceSpaces_eq_self k hk, replaceSpaces_eq_self v hvs]
  · have he : replaceSpaces "" = "" := rfl
    simp [awsTagName, replaceSpaces_eq_self k hk, he]

/-- C3, witness: concrete space-free tag `env`/`prod`. -/
theorem c3_witness :
    azureTagName "env" "prod" = "env" ++ "_" ++ "prod" ∧
    azureTagName "env" "" = "env" ∧
    gcpTagName "env" "prod" = "env" ++ "_" ++ "prod" ∧
    gcpTagName "env" "" = "env" ∧
    awsTagName ⟨"env", "prod"⟩ = "env" ++ "_" ++ "prod" ∧
    awsTagName ⟨"env", ""⟩ = "env" ++ "_" :=
  c3_amended "env" "prod" (by decide) (by decide) (by decide)

/-- C4, counterexample: the Azure script's report-only path prints only the
raw per-subscription inventory and exits 0 BEFORE the aggregation stage — no
`GroupAggregate` is printed at all, even though the aggregation logic would
produce a non-empty one for the same inventory. -/
theorem c4_counterexample :
    (azureMain ⟨true⟩ [("sub1", [⟨"vm1", [("env", "prod")], ["10.0.0.1"]⟩])]
        (fun _ => true)).1
      = [Event.printRaw] ∧
    azureAggregate [("sub1", [⟨"vm1", [("env", "prod")], ["10.0.0.1"]⟩])]
      = [("env_prod", ["10.0.0.1"])] := by
  constructor
  · rfl
  · decide

/-- C4, amended: with `--report_only` set, no script establishes an SMC
session and no publish call is ever issued (the full traces below contain
neither `login` nor any `publish` event); the AWS and GCP scripts print the
aggregate computed by the very aggregation function used in publish mode,
while the Azure script prints only the raw inventory and exits before
aggregation. -/
theorem c4_amended (acfg : AwsConfig) (ha : acfg.report_only = true)
    (batches : List (List AwsInstance)) (callOk : String → Bool)
    (zcfg : AzureConfig) (hz : zcfg.report_only = true)
    (res : List (String × List AzureVm))
    (gcfg : GcpConfig) (hg : gcfg.report_only = true) (hzone : gcfg.zone = none)
    (p : List GcpInstance) (zr : List (String × List GcpHost)) (agg : Agg)
    (hok : gcpAggregate zr = Except.ok agg) :
    (awsMain acfg batches callOk).1
      = [Event.printRaw, Event.printAgg (awsAggregate acfg batches)] ∧
    (azureMain zcfg res callOk).1 = [Event.printRaw] ∧
    (gcpMain gcfg p zr callOk).1 = [Event.printRaw, Event.printAgg agg] ∧
    Event.login ∉ (awsMain acfg batches callOk).1 ∧
    Event.login ∉ (azureMain zcfg res callOk).1 ∧
    Event.login ∉ (gcpMain gcfg p zr callOk).1 := by
  have h1 : (awsMain acfg batches callOk).1
      = [Event.printRaw, Event.printAgg (awsAggregate acfg batches)] := by
    simp [awsMain, ha]
  have h2 : (azureMain zcfg res callOk).1 = [Event.printRaw] := by
    simp [azureMain, hz]
  have h3 : (gcpMain gcfg p zr callOk).1 = [Event.printRaw, Event.printAgg agg] := by
    simp [gcpMain, hzone, hg, gcpItems, hok]
  refine ⟨h1, h2, h3, ?_, ?_, ?_⟩ <;> simp [h1, h2, h3]

/-- C4, witness: a concrete report-only run for each provider. -/
theorem c4_witness :
    (awsMain ⟨true, none⟩ [[⟨"vm1", [⟨"env", "prod"⟩], ["10.0.0.1"], "z"⟩]]
        (fun _ => true)).1
      = [Event.printRaw,
         Event.printAgg (awsAggregate ⟨true, none⟩
           [[⟨"vm1", [⟨"env", "prod"⟩], ["10.0.0.1"], "z"⟩]])] ∧
    (azureMain ⟨true⟩ [] (fun _ => true)).1 = [Event.printRaw] ∧
    (gcpMain ⟨none, true⟩ [] [("zones/z1", [⟨[("env", "prod")], some ["10.2.0.4"]⟩])]
        (fun _ => true)).1
      = [Event.printRaw, Event.printAgg [("env_prod", ["10.2.0.4"])]] ∧
    Event.login ∉ (awsMain ⟨true, none⟩
        [[⟨"vm1", [⟨"env", "prod"⟩], ["10.0.0.1"], "z"⟩]] (fun _ => true)).1 ∧
    Event.login ∉ (azureMain ⟨true⟩ [] (fun _ => true)).1 ∧
    Event.login ∉ (gcpMain ⟨none, true⟩ []
        [("zones/z1", [⟨[("env", "prod")], some ["10.2.0.4"]⟩])] (fun _ => true)).1 :=
  c4_amended ⟨true, none⟩ rfl [[⟨"vm1", [⟨"env", "prod"⟩], ["10.0.0.1"], "z"⟩]]
    (fun _ => true) ⟨true⟩ rfl [] ⟨none, true⟩ rfl rfl []
    [("zones/z1", [⟨[("env", "prod")], some ["10.2.0.4"]⟩])]
    [("env_prod", ["10.2.0.4"])] rfl

/-- C5: in publish mode, when the remote calls succeed, each script issues
exactly one `IPList.update_or_create(name, iplist, append_lists=False)` call
per aggregate entry, carrying the group's complete current address list with
the replace-not-append flag; and under the modelled SMC replace semantics an
address absent from the sent list is absent from the resulting remote list. -/
theorem c5_full_replace (cfg : AwsConfig) (hr : cfg.report_only = false)
    (batches : List (List AwsInstance)) (callOk : String → Bool)
    (hall : ∀ q ∈ awsAggregate cfg batches, callOk q.1 = true)
    (res : List (String × List AzureVm))
    (hall2 : ∀ q ∈ azureAggregate res, callOk q.1 = true)
    (p : List GcpInstance) (zr : List (String × List GcpHost)) (agg : Agg)
    (hok : gcpAggregate zr = Except.ok agg)
    (hall3 : ∀ q ∈ agg, callOk q.1 = true)
    (old nw : List String) (a : String) (ha : a ∉ nw) :
    (awsMain cfg batches callOk).1
      = Event.login ::
          (awsAggregate cfg batches).map (fun q => Event.publish q.1 q.2 false) ∧
    (azureMain ⟨false⟩ res callOk).1
      = Event.login :: (azureAggregate res).map (fun q => Event.publish q.1 q.2 false) ∧
    (gcpMain ⟨none, false⟩ p zr callOk).1
      = Event.login :: agg.map (fun q => Event.publish q.1 q.2 false) ∧
    a ∉ updateRemote old nw false := by
  refine ⟨?_, ?_, ?_, ?_⟩
  · simp [awsMain, hr, publishLoop_all_ok callOk _ hall]
  · simp [azureMain, publishLoop_all_ok callOk _ hall2]
  · simp [gcpMain, gcpItems, hok, publishLoop_all_ok callOk _ hall3]
  · simpa [updateRemote] using ha

/-- C5, witness: a concrete publish-mode run for each provider, and removal
of a stale address under the modelled replace semantics. -/
theorem c5_witness :
    (awsMain ⟨false, none⟩ [[⟨"vm1", [⟨"env", "prod"⟩], ["10.0.0.1"], "z"⟩]]
        (fun _ => true)).1
      = Event.login ::
          (awsAggregate ⟨false, none⟩
              [[⟨"vm1", [⟨"env", "prod"⟩], ["10.0.0.1"], "z"⟩]]).map
            (fun q => Event.publish q.1 q.2 false) ∧
    (azureMain ⟨false⟩ [("sub1", [⟨"vmz", [("env", "prod")], ["10.1.0.4"]⟩])]
        (fun _ => true)).1
      = Event.login ::
          (azureAggregate [("sub1", [⟨"vmz", [("env", "prod")], ["10.1.0.4"]⟩])]).map
            (fun q => Event.publish q.1 q.2 false) ∧
    (gcpMain ⟨none, false⟩ [] [("zones/z1", [⟨[("env", "prod")], some ["10.2.0.4"]⟩])]
        (fun _ => true)).1
      = Event.login ::
          ([("env_prod", ["10.2.0.4"])] : Agg).map
            (fun q => Event.publish q.1 q.2 false) ∧
    "10.9.9.9" ∉ updateRemote ["10.9.9.9"] ["10.0.0.1"] false :=
  c5_full_replace ⟨false, none⟩ rfl
    [[⟨"vm1", [⟨"env", "prod"⟩], ["10.0.0.1"], "z"⟩]] (fun _ => true)
    (fun _ _ => rfl)
    [("sub1", [⟨"vmz", [("env", "prod")], ["10.1.0.4"]⟩])] (fun _ _ => rfl)
    [] [("zones/z1", [⟨[("env", "prod")], some ["10.2.0.4"]⟩])]
    [("env_prod", ["10.2.0.4"])] rfl (fun _ _ => rfl)
    ["10.9.9.9"] ["10.0.0.1"] "10.9.9.9" (by decide)

/-- C6: delivering a 3-instance inventory as 3 pages of 1 instance each
yields the same final aggregate as delivering it as a single page of 3
instances — group keys and accumulated address lists persist across page
boundaries. -/
theorem c6_pagination (cfg : AwsConfig) (a b c : AwsInstance) :
    awsAggregate cfg [[a], [b], [c]] = awsAggregate cfg [[a, b, c]] := by
  rw [awsAggregate_flatten cfg [[a], [b], [c]]]
  rfl

/-- C7, counterexample: the publish loop has no try/except — when the call
for the first group (`env_prod`) fails, the call for the remaining group
(`team_infra`) is never issued and the run does not finish. -/
theorem c7_counterexample :
    (awsMain ⟨false, none⟩
        [[⟨"vm1", [⟨"env", "prod"⟩], ["10.0.0.1"], "z"⟩,
          ⟨"vm2", [⟨"team", "infra"⟩], ["10.0.0.2"], "z"⟩]]
        (fun n => n != "env_prod")).1
      = [Event.login, Event.publish "env_prod" ["10.0.0.1"] false] ∧
    (awsMain ⟨false, none⟩
        [[⟨"vm1", [⟨"env", "prod"⟩], ["10.0.0.1"], "z"⟩,
          ⟨"vm2", [⟨"team", "infra"⟩], ["10.0.0.2"], "z"⟩]]
        (fun n => n != "env_prod")).2 = false := by
  constructor
  · decide
  · decide

/-- C7, amended: a publish failure is NOT caught: the loop issues the calls
for the groups preceding the failing one, issues the failing call, and then
aborts — no call for any remaining group is issued and the run does not
exit 0.  (The spec itself notes this as current behavior and recommends
per-group isolation as the improved design.) -/
theorem c7_amended (callOk : String → Bool) (g : String × List String)
    (hg : callOk g.1 = false) :
    ∀ (pre rest : Agg), (∀ q ∈ pre, callOk q.1 = true) →
      publishLoop callOk (pre ++ g :: rest)
        = ((pre ++ [g]).map (fun q => Event.publish q.1 q.2 false), false) := by
  intro pre
  induction pre with
  | nil =>
    intro rest _
    obtain ⟨gn, ga⟩ := g
    simp only at hg
    simp [publishLoop, hg]
  | cons q qs ih =>
    intro rest hpre
    obtain ⟨qn, qa⟩ := q
    have hq : callOk qn = true := hpre (qn, qa) (by simp)
    simp only [List.cons_append, publishLoop, hq, if_pos, List.map_cons,
      List.append_eq]
    rw [ih rest fun r hr => hpre r (by simp [hr])]

/-- C7, witness: with groups `g0`, `g1`, `g2` and the call failing on `g1`,
only the `g0` and `g1` calls are issued. -/
theorem c7_witness :
    publishLoop (fun n => n != "g1")
        ([("g0", ["10.0.0.0"])] ++ ("g1", ["10.0.0.1"]) :: [("g2", ["10.0.0.2"])])
      = (([("g0", ["10.0.0.0"])] ++ [("g1", ["10.0.0.1"])]).map
          (fun q => Event.publish q.1 q.2 false), false) :=
  c7_amended (fun n => n != "g1") ("g1", ["10.0.0.1"]) (by decide)
    [("g0", ["10.0.0.0"])] [("g2", ["10.0.0.2"])] (by decide)

/-- A character produced by the space-to-underscore map is never a space. -/
lemma mem_map_ne_space (c : Char) (l : List Char)
    (h : c ∈ l.map (fun c => if c = ' ' then '_' else c)) : (c != ' ') = true := by
  obtain ⟨d, _, rfl⟩ := List.mem_map.1 h
  by_cases hd : d = ' ' <;> simp [hd]

/-- C8: the AWS script replaces every space in a tag key and tag value with
an underscore before building the group name (its group names never contain
a space), while the Azure and GCP scripts apply no such replacement and
keep spaces verbatim. -/
theorem c8_space_sanitization :
    (∀ k v : String, ((awsTagName ⟨k, v⟩).data.all fun c => c != ' ') = true) ∧
    awsTagName ⟨"a b", "c d"⟩ = "a_b_c_d" ∧
    azureTagName "a b" "c d" = "a b_c d" ∧
    gcpTagName "a b" "c d" = "a b_c d" := by
  refine ⟨?_, by decide, by decide, by decide⟩
  intro k v
  rw [List.all_eq_true]
  intro c hc
  simp only [awsTagName, String.data_append, replaceSpaces_data,
    List.mem_append] at hc
  rcases hc with (hc | hc) | hc
  · exact mem_map_ne_space c k.data hc
  · have hu : c = '_' := by simpa using hc
    simp [hu]
  · exact mem_map_ne_space c v.data hc

/-- C9: the GCP normalization only creates the `private_address` key while
iterating network interfaces (the initializer writes the unused plural key),
so an instance with a label and no interfaces reaches the aggregation loop
with `host.get('private_address') = None` and `[].extend(None)` raises —
the aggregation stage fails instead of contributing nothing, contradicting
the spec's invariant that empty `private_addresses` must not fail. -/
theorem c9_gcp_crash :
    gcpHostOf ⟨[("env", "prod")], []⟩ = ⟨[("env", "prod")], none⟩ ∧
    gcpAggregate [("zones/us-east1-b", [gcpHostOf ⟨[("env", "prod")], []⟩])]
      = Except.error gcpTypeErrorMsg := by
  constructor
  · rfl
  · rfl

/-- C10: whenever `--zone` is supplied, the GCP script's inventory is the
iterable pager from `list_instances`; the aggregation stage's `.items()`
call on it raises `AttributeError`, so the run fails with only the initial
print/login event emitted — no group is built and no publish call is ever
issued; the publish path is reachable only without `--zone`. -/
theorem c10_zone_crash (cfg : GcpConfig) (z : String) (hz : cfg.zone = some z)
    (p : List GcpInstance) (zr : List (String × List GcpHost))
    (callOk : String → Bool) :
    (gcpMain cfg p zr callOk).2 = Except.error gcpAttrErrorMsg ∧
    (gcpMain cfg p zr callOk).1
      = (if cfg.report_only then [Event.printRaw] else [Event.login]) := by
  constructor <;> simp [gcpMain, hz, gcpItems]

/-- C10, witness: a concrete `--zone us-west3-b` publish-mode run fails with
`AttributeError` right after login, issuing no publish call. -/
theorem c10_witness :
    (gcpMain ⟨some "us-west3-b", false⟩ [] [] (fun _ => true)).2
      = Except.error gcpAttrErrorMsg ∧
    (gcpMain ⟨some "us-west3-b", false⟩ [] [] (fun _ => true)).1
      = [Event.login] := by
  have h := c10_zone_crash ⟨some "us-west3-b", false⟩ "us-west3-b" rfl [] []
    (fun _ => true)
  exact ⟨h.1, h.2.trans rfl⟩

end DynTags
